import Mathlib

/-!
Verification of the voiceprint lifecycle and matching engine of the Hybrid
voice-authentication repository.

The development shallowly embeds the three `VoiceMatcher` variants found in
the sources:

* `voice_matcher.py`   — fixed-vector ensemble scorer (cosine to mean/median,
  best raw-sample cosine, statistical distance; threshold 0.75);
* `voice_matcher-1.py` — alignment (DTW) based scorer with
  `similarity = exp(-avg_distance / 40.0)` and threshold 0.1;
* `voice_matcher-3.py` — embedding-average variant (mean embedding only).

Feature vectors are `List ℝ`.  The per-user pickle files on disk become
explicit state records mapping a user id to the optional staging directory
(a list of `(sample_number, features)` entries, in listing order) and the
optional consolidated voiceprint.  DTW distances live in `ℝ≥0∞` so that the
`float('inf')` returned by the `dtw_distance` wrapper on a failed alignment
is represented by `⊤`.
-/

set_option maxHeartbeats 1000000

open scoped ENNReal

noncomputable section

namespace Hybrid

/-- A feature vector: an ordered sequence of real numbers. -/
abbrev FeatureVec := List ℝ

/-- Dot product of two feature vectors (`np.dot` over the common prefix). -/
def dot (a b : FeatureVec) : ℝ := (List.zipWith (fun x y => x * y) a b).sum

/-- `sklearn.metrics.pairwise.cosine_similarity` on two single-row inputs:
each row is normalised by its Euclidean norm, a zero-norm row being left as
the zero row (sklearn clamps zero norms to 1), so a zero vector yields
similarity 0. -/
def cosineSim (a b : FeatureVec) : ℝ :=
  if Real.sqrt (dot a a) = 0 ∨ Real.sqrt (dot b b) = 0 then 0
  else dot a b / (Real.sqrt (dot a a) * Real.sqrt (dot b b))

/-- `np.mean` of a list of reals (the empty list degenerates to `0/0 = 0`). -/
def meanList (l : List ℝ) : ℝ := l.sum / l.length

/-- The values of coordinate `d` across a list of sample vectors
(column `d` of `np.array(samples)`). -/
def dimVals (samples : List FeatureVec) (d : ℕ) : List ℝ :=
  samples.map (fun s => s.getD d 0)

/-- `np.mean(samples_array, axis=0)` for `D`-dimensional samples. -/
def npMean (samples : List FeatureVec) (D : ℕ) : FeatureVec :=
  (List.range D).map (fun d => meanList (dimVals samples d))

/-- Population standard deviation of a list of reals (`np.std`, `ddof = 0`). -/
def stdList (l : List ℝ) : ℝ :=
  Real.sqrt (meanList (l.map (fun x => (x - meanList l) ^ 2)))

/-- `np.std(samples_array, axis=0)` for `D`-dimensional samples. -/
def npStd (samples : List FeatureVec) (D : ℕ) : FeatureVec :=
  (List.range D).map (fun d => stdList (dimVals samples d))

/-- `np.median` of a list of reals: sort ascending, take the middle element
for odd length, the average of the two middle elements for even length. -/
def medianList (l : List ℝ) : ℝ :=
  if l.length % 2 = 1 then (List.insertionSort (fun a b => a ≤ b) l).getD (l.length / 2) 0
  else ((List.insertionSort (fun a b => a ≤ b) l).getD (l.length / 2 - 1) 0 +
        (List.insertionSort (fun a b => a ≤ b) l).getD (l.length / 2) 0) / 2

/-- `np.median(samples_array, axis=0)` for `D`-dimensional samples. -/
def npMedian (samples : List FeatureVec) (D : ℕ) : FeatureVec :=
  (List.range D).map (fun d => medianList (dimVals samples d))

/-- The consolidated voiceprint record written by
`VoiceMatcher.create_voiceprint` in `voice_matcher.py`. -/
structure Voiceprint where
  mean_features : FeatureVec
  std_features : FeatureVec
  median_features : FeatureVec
  sample_count : ℕ
  raw_samples : List FeatureVec

/-- The on-disk state touched by the ensemble matcher, per user id:
`samples u` is the staging directory `voiceprints/user_u_samples` (absent or a
list of `(sample_number, features)` files in listing order), `voiceprint u`
is the consolidated `voiceprints/user_u_voiceprint.pkl` record. -/
structure EnsembleState where
  samples : ℕ → Option (List (ℕ × FeatureVec))
  voiceprint : ℕ → Option Voiceprint

/-- Pointwise update of a user-indexed map. -/
def updateFn {β : Type} (f : ℕ → β) (u : ℕ) (v : β) : ℕ → β :=
  fun x => if x = u then v else f x

/-- The state with no staged samples and no voiceprints at all. -/
def emptyEnsembleState : EnsembleState := ⟨fun _ => none, fun _ => none⟩

/-- `VoiceMatcher.save_voice_sample` (`voice_matcher.py`): create the staging
directory on first use and write `sample_{n}.pkl`, overwriting a file already
present at the same sample number.  Returns `True`. -/
def save_voice_sample (st : EnsembleState) (u n : ℕ) (features : FeatureVec) :
    Bool × EnsembleState :=
  let dir := (st.samples u).getD []
  let dir' := if dir.any (fun p => p.1 == n)
              then dir.map (fun p => if p.1 == n then (n, features) else p)
              else dir ++ [(n, features)]
  (true, ⟨updateFn st.samples u (some dir'), st.voiceprint⟩)

/-- `VoiceMatcher.get_sample_count` (`voice_matcher.py`): `0` when the staging
directory is absent, otherwise the number of staged sample files. -/
def get_sample_count (st : EnsembleState) (u : ℕ) : ℕ :=
  match st.samples u with
  | none => 0
  | some dir => dir.length

/-- `VoiceMatcher.create_voiceprint` (`voice_matcher.py`): fail when the
staging directory is absent or holds fewer than `min_samples = 3` samples;
otherwise write the consolidated record with per-dimension mean, std and
median plus the raw samples. -/
def create_voiceprint (st : EnsembleState) (u : ℕ) : Bool × EnsembleState :=
  match st.samples u with
  | none => (false, st)
  | some dir =>
    let samps := dir.map (fun p => p.2)
    if samps.length < 3 then (false, st)
    else
      let D := (samps.headD []).length
      (true, ⟨st.samples,
              updateFn st.voiceprint u
                (some ⟨npMean samps D, npStd samps D, npMedian samps D,
                       samps.length, samps⟩)⟩)

/-- The epsilon `1e-8` added to the std vector in the statistical-distance
signal. -/
def eps : ℝ := 1 / 100000000

/-- Signal 4 of `VoiceMatcher.authenticate_voice` (`voice_matcher.py`):
`1.0 / (1.0 + np.mean(np.abs(test - mean) / (std + 1e-8)))`. -/
def statScore (test mean std : FeatureVec) : ℝ :=
  1 / (1 + meanList ((List.zip test (List.zip mean std)).map
        (fun p => |p.1 - p.2.1| / (p.2.2 + eps))))

/-- Signal 3 of `VoiceMatcher.authenticate_voice` (`voice_matcher.py`): the
running maximum, initialised at `0.0`, of the cosine similarity between the
probe and each raw enrolled sample. -/
def bestSampleScore (test : FeatureVec) (raw : List FeatureVec) : ℝ :=
  raw.foldl (fun acc s => max acc (cosineSim test s)) 0

/-- `np.average(scores, weights=weights)`: the weighted sum divided by the
sum of the weights. -/
def npAverage (scores weights : List ℝ) : ℝ :=
  (List.zipWith (fun s w => s * w) scores weights).sum / weights.sum

/-- `VoiceMatcher.authenticate_voice` (`voice_matcher.py`): `(False, 0.0)`
when no voiceprint record exists, otherwise the four-signal ensemble score
fused by `np.average` with weights `[0.3, 0.2, 0.3, 0.2]` and compared with
the threshold `0.75`. -/
def authenticate_voice (st : EnsembleState) (u : ℕ) (test : FeatureVec) :
    Bool × ℝ :=
  match st.voiceprint u with
  | none => (false, 0)
  | some vp =>
    let final := npAverage
      [cosineSim test vp.mean_features,
       cosineSim test vp.median_features,
       bestSampleScore test vp.raw_samples,
       statScore test vp.mean_features vp.std_features]
      [0.3, 0.2, 0.3, 0.2]
    (if (0.75 : ℝ) ≤ final then true else false, final)

/-- `VoiceMatcher.clear_user_voiceprint` (`voice_matcher.py`): remove the
voiceprint file if present, then the staging directory if present; returns
`True`. -/
def clear_user_voiceprint (st : EnsembleState) (u : ℕ) : Bool × EnsembleState :=
  (true, ⟨updateFn st.samples u none, updateFn st.voiceprint u none⟩)

/-- On-disk state of the alignment-based matcher (`voice_matcher-1.py`), per
user id: the voiceprint pickle holds the list of enrolled MFCC matrices
(type parameter `α`). -/
structure DTWState (α : Type) where
  voiceprint : ℕ → Option (List α)

/-- Distance-to-similarity conversion of `VoiceMatcher.authenticate_voice`
(`voice_matcher-1.py`): `np.exp(-avg_dist / 40.0)`.  A distance of `⊤`
models the IEEE `inf` produced when some alignment failed, for which numpy
evaluates `exp(-inf) = 0.0`. -/
def simOfAvgDist (d : ℝ≥0∞) : ℝ :=
  if d = ⊤ then 0 else Real.exp (-(d.toReal / 40))

/-- `VoiceMatcher.authenticate_voice` (`voice_matcher-1.py`): `(False, 0.0)`
when no voiceprint exists, otherwise the DTW distances of the probe to every
enrolled sample are averaged and converted with `exp(-avg / 40.0)`, matched
against the threshold `0.1`.  `dtwDist` stands for the `dtw_distance` wrapper
of the same file, which returns `float('inf')` (here `⊤`) whenever the
underlying alignment raises. -/
def authenticate_dtw {α : Type} (dtwDist : α → α → ℝ≥0∞)
    (st : DTWState α) (u : ℕ) (test : α) : Bool × ℝ :=
  match st.voiceprint u with
  | none => (false, 0)
  | some enrolled =>
    let distances := enrolled.map (fun e => dtwDist test e)
    let sim := simOfAvgDist (distances.sum / (distances.length : ℝ≥0∞))
    (if (0.1 : ℝ) ≤ sim then true else false, sim)

/-- On-disk state of the embedding-average matcher (`voice_matcher-3.py`),
per user id: staged embeddings and the optional mean-embedding voiceprint. -/
structure EmbedState where
  samples : ℕ → Option (List (ℕ × FeatureVec))
  voiceprint : ℕ → Option FeatureVec

/-- `VoiceMatcher.get_sample_count` (`voice_matcher-3.py`). -/
def get_sample_count_embed (st : EmbedState) (u : ℕ) : ℕ :=
  match st.samples u with
  | none => 0
  | some dir => dir.length

/-- `VoiceMatcher.create_voiceprint` (`voice_matcher-3.py`): fail when the
staging directory is absent or holds fewer than 3 embeddings, otherwise
write the mean embedding. -/
def create_voiceprint_embed (st : EmbedState) (u : ℕ) : Bool × EmbedState :=
  match st.samples u with
  | none => (false, st)
  | some dir =>
    let es := dir.map (fun p => p.2)
    if es.length < 3 then (false, st)
    else (true, ⟨st.samples,
                 updateFn st.voiceprint u (some (npMean es (es.headD []).length))⟩)

/-- Modelled from the spec, for refinement comparison only (claim about the
fused score formula): the "best per-raw-sample cosine similarity", read
literally as the maximum over the enrolled raw samples of the cosine
similarity to the probe, with no clamping at 0. -/
def specBestRawCos (test : FeatureVec) (raw : List FeatureVec) : ℝ :=
  match raw.map (fun s => cosineSim test s) with
  | [] => 0
  | c :: cs => cs.foldl max c

/-- Modelled from the spec, for refinement comparison only: the final score
as the spec sentence words it — the weighted average (weights 0.3, 0.2, 0.3,
0.2) of the cosine similarity to the mean vector, the cosine similarity to
the median vector, the best per-raw-sample cosine similarity, and the
statistical-distance similarity. -/
def specFinalScore (vp : Voiceprint) (test : FeatureVec) : ℝ :=
  0.3 * cosineSim test vp.mean_features +
  0.2 * cosineSim test vp.median_features +
  0.3 * specBestRawCos test vp.raw_samples +
  0.2 * statScore test vp.mean_features vp.std_features

/-! ### Helper lemmas -/

theorem meanList_perm {l l' : List ℝ} (h : l.Perm l') : meanList l = meanList l' := by
  rw [meanList, meanList, h.sum_eq, h.length_eq]

theorem stdList_perm {l l' : List ℝ} (h : l.Perm l') : stdList l = stdList l' := by
  rw [stdList, stdList, meanList_perm h]
  rw [meanList_perm (h.map (fun x => (x - meanList l') ^ 2))]

theorem insertionSort_perm_eq {l l' : List ℝ} (h : l.Perm l') :
    List.insertionSort (fun a b => a ≤ b) l = List.insertionSort (fun a b => a ≤ b) l' := by
  have hs : (List.insertionSort (fun a b : ℝ => a ≤ b) l).Sorted (fun a b : ℝ => a ≤ b) :=
    List.sorted_insertionSort _ l
  have hs' : (List.insertionSort (fun a b : ℝ => a ≤ b) l').Sorted (fun a b : ℝ => a ≤ b) :=
    List.sorted_insertionSort _ l'
  exact List.eq_of_perm_of_sorted
    ((List.perm_insertionSort _ l).trans (h.trans (List.perm_insertionSort _ l').symm)) hs hs'

theorem medianList_perm {l l' : List ℝ} (h : l.Perm l') : medianList l = medianList l' := by
  rw [medianList, medianList, insertionSort_perm_eq h, h.length_eq]

theorem dimVals_perm {l l' : List FeatureVec} (h : l.Perm l') (d : ℕ) :
    (dimVals l d).Perm (dimVals l' d) := h.map _

theorem mapRange_getD (v : List ℝ) :
    List.map (fun d => v.getD d 0) (List.range v.length) = v := by
  apply List.ext_getElem
  · simp
  · intro i h1 h2
    simp [List.getD_eq_getElem v 0 h2, List.getElem?_eq_getElem h2]

theorem meanList_triple (x : ℝ) : meanList [x, x, x] = x := by
  simp [meanList]
  ring

theorem npMean_triple (v : FeatureVec) : npMean [v, v, v] v.length = v := by
  have h : ∀ d, meanList (dimVals [v, v, v] d) = v.getD d 0 := by
    intro d
    rw [show dimVals [v, v, v] d = [v.getD d 0, v.getD d 0, v.getD d 0] from rfl]
    exact meanList_triple _
  calc npMean [v, v, v] v.length
      = List.map (fun d => v.getD d 0) (List.range v.length) := by
        rw [npMean]
        exact List.map_congr_left (fun d _ => h d)
    _ = v := mapRange_getD v

theorem medianList_triple (x : ℝ) : medianList [x, x, x] = x := by
  have hsort : List.insertionSort (fun a b : ℝ => a ≤ b) [x, x, x] = [x, x, x] := by
    simp [List.insertionSort, List.orderedInsert]
  simp [medianList, hsort]

theorem npMedian_triple (v : FeatureVec) : npMedian [v, v, v] v.length = v := by
  have h : ∀ d, medianList (dimVals [v, v, v] d) = v.getD d 0 := by
    intro d
    rw [show dimVals [v, v, v] d = [v.getD d 0, v.getD d 0, v.getD d 0] from rfl]
    exact medianList_triple _
  calc npMedian [v, v, v] v.length
      = List.map (fun d => v.getD d 0) (List.range v.length) := by
        rw [npMedian]
        exact List.map_congr_left (fun d _ => h d)
    _ = v := mapRange_getD v

theorem dot_self_eq (v : FeatureVec) : dot v v = (v.map (fun x => x * x)).sum := by
  induction v with
  | nil => rfl
  | cons a t ih =>
    show (List.zipWith (fun x y => x * y) (a :: t) (a :: t)).sum = _
    rw [List.zipWith_cons_cons, List.sum_cons, List.map_cons, List.sum_cons, ← ih]
    rfl

theorem dot_self_nonneg (v : FeatureVec) : 0 ≤ dot v v := by
  rw [dot_self_eq]
  apply List.sum_nonneg
  intro x hx
  obtain ⟨y, _, rfl⟩ := List.mem_map.mp hx
  exact mul_self_nonneg y

theorem cosineSim_self {v : FeatureVec} (hv : dot v v ≠ 0) : cosineSim v v = 1 := by
  have hpos : 0 < dot v v := lt_of_le_of_ne (dot_self_nonneg v) (Ne.symm hv)
  have hsq : Real.sqrt (dot v v) * Real.sqrt (dot v v) = dot v v :=
    Real.mul_self_sqrt (dot_self_nonneg v)
  have hne : Real.sqrt (dot v v) ≠ 0 := by
    intro h0
    rw [h0, mul_zero] at hsq
    exact hv hsq.symm
  rw [cosineSim, if_neg (by push_neg; exact ⟨hne, hne⟩), hsq, div_self hv]

theorem statScore_self (v std : FeatureVec) : statScore v v std = 1 := by
  have hz : ((List.zip v (List.zip v std)).map
      (fun p => |p.1 - p.2.1| / (p.2.2 + eps))).sum = 0 := by
    apply List.sum_eq_zero
    intro x hx
    obtain ⟨p, hp, rfl⟩ := List.mem_map.mp hx
    obtain ⟨i, hi, hpi⟩ := List.mem_iff_getElem.mp hp
    have h1 : i < v.length := by
      simp [List.length_zip] at hi
      omega
    have h2 : i < (List.zip v std).length := by
      simp [List.length_zip] at hi ⊢
      omega
    have h3 : i < std.length := by
      simp [List.length_zip] at hi
      omega
    have : p = (v[i], (v[i], std[i])) := by
      rw [← hpi]
      rw [List.getElem_zip, List.getElem_zip]
    rw [this]
    simp
  rw [statScore, meanList, hz]
  simp

theorem statScore_le_one (t m s : FeatureVec) (hs : ∀ x ∈ s, 0 ≤ x) :
    statScore t m s ≤ 1 := by
  have hterm : ∀ x ∈ (List.zip t (List.zip m s)).map
      (fun p => |p.1 - p.2.1| / (p.2.2 + eps)), 0 ≤ x := by
    intro x hx
    obtain ⟨p, hp, rfl⟩ := List.mem_map.mp hx
    have hps : p.2.2 ∈ s := ((List.of_mem_zip ((List.of_mem_zip hp).2)).2)
    have hpos : 0 < p.2.2 + eps := by
      have := hs _ hps
      have heps : (0 : ℝ) < eps := by norm_num [eps]
      linarith
    exact div_nonneg (abs_nonneg _) (le_of_lt hpos)
  have hm : 0 ≤ meanList ((List.zip t (List.zip m s)).map
      (fun p => |p.1 - p.2.1| / (p.2.2 + eps))) := by
    rw [meanList]
    apply div_nonneg (List.sum_nonneg hterm) (Nat.cast_nonneg _)
  rw [statScore]
  rw [div_le_one (by linarith)]
  linarith

theorem le_foldl_max : ∀ (l : List ℝ) (a : ℝ), a ≤ l.foldl max a := by
  intro l
  induction l with
  | nil => intro a; simp
  | cons x t ih => intro a; exact le_trans (le_max_left a x) (ih (max a x))

theorem mem_le_foldl_max : ∀ (l : List ℝ) (a x : ℝ), x ∈ l → x ≤ l.foldl max a := by
  intro l
  induction l with
  | nil => intro a x hx; simp at hx
  | cons y t ih =>
    intro a x hx
    rcases List.mem_cons.mp hx with h | h
    · subst h
      exact le_trans (le_max_right a x) (le_foldl_max t (max a x))
    · exact ih (max a y) x h

theorem foldl_max_le : ∀ (l : List ℝ) (a b : ℝ), a ≤ b → (∀ x ∈ l, x ≤ b) →
    l.foldl max a ≤ b := by
  intro l
  induction l with
  | nil => intro a b hab _; simpa using hab
  | cons y t ih =>
    intro a b hab hl
    exact ih (max a y) b (max_le hab (hl y (List.mem_cons_self y t)))
      (fun x hx => hl x (List.mem_cons_of_mem y hx))

theorem updateFn_idem {β : Type} (f : ℕ → β) (u : ℕ) (v v' : β) :
    updateFn (updateFn f u v) u v' = updateFn f u v' := by
  funext x
  by_cases h : x = u <;> simp [updateFn, h]

theorem cosineSim_unit (a b : FeatureVec) (ha : dot a a = 1) (hb : dot b b = 1) :
    cosineSim a b = dot a b := by
  rw [cosineSim, ha, hb, Real.sqrt_one]
  norm_num

theorem cosineSim_eval (a b : FeatureVec) (x y : ℝ) (hx : 0 < x) (hy : 0 < y)
    (ha : dot a a = x ^ 2) (hb : dot b b = y ^ 2) :
    cosineSim a b = dot a b / (x * y) := by
  rw [cosineSim, ha, hb, Real.sqrt_sq hx.le, Real.sqrt_sq hy.le,
      if_neg (by push_neg; exact ⟨ne_of_gt hx, ne_of_gt hy⟩)]

/-! ### Claim C1 -/

/-- Claim C1: for every user with no stored voiceprint record and every probe
feature, authentication returns exactly `(false, 0.0)` — in both the
ensemble matcher (`voice_matcher.py`) and the alignment matcher
(`voice_matcher-1.py`).  The embedded functions are total, so no exception
can escape. -/
theorem authenticate_no_voiceprint {α : Type} (st : EnsembleState)
    (dst : DTWState α) (dtwDist : α → α → ℝ≥0∞) (u u' : ℕ)
    (test : FeatureVec) (m : α)
    (h : st.voiceprint u = none) (h' : dst.voiceprint u' = none) :
    authenticate_voice st u test = (false, 0) ∧
    authenticate_dtw dtwDist dst u' m = (false, 0) := by
  constructor
  · rw [authenticate_voice, h]
  · rw [authenticate_dtw, h']

/-- Witness for C1 at a concrete empty store. -/
theorem authenticate_no_voiceprint_witness :
    authenticate_voice emptyEnsembleState 0 [1, 0] = (false, 0) ∧
    authenticate_dtw (fun _ _ : Unit => 1) ⟨fun _ => none⟩ 0 () = (false, 0) :=
  authenticate_no_voiceprint emptyEnsembleState ⟨fun _ => none⟩
    (fun _ _ => 1) 0 0 [1, 0] () rfl rfl

/-! ### Claim C2 -/

/-- Claim C2: with strictly fewer than `min_samples = 3` staged samples,
`create_voiceprint` fails and leaves the state — in particular the
voiceprint store — completely unchanged, in both the ensemble matcher
(`voice_matcher.py`) and the embedding matcher (`voice_matcher-3.py`). -/
theorem create_voiceprint_insufficient_samples (st : EnsembleState)
    (est : EmbedState) (u u' : ℕ)
    (h : get_sample_count st u < 3) (h' : get_sample_count_embed est u' < 3) :
    create_voiceprint st u = (false, st) ∧
    create_voiceprint_embed est u' = (false, est) := by
  constructor
  · cases hs : st.samples u with
    | none => rw [create_voiceprint, hs]
    | some dir =>
      rw [get_sample_count, hs] at h
      rw [create_voiceprint, hs]
      simp only [List.length_map]
      rw [if_pos h]
  · cases hs : est.samples u' with
    | none => rw [create_voiceprint_embed, hs]
    | some dir =>
      rw [get_sample_count_embed, hs] at h'
      rw [create_voiceprint_embed, hs]
      simp only [List.length_map]
      rw [if_pos h']

/-- A concrete staging state holding two samples for user 1. -/
def stC2 : EnsembleState :=
  (save_voice_sample (save_voice_sample emptyEnsembleState 1 1 [1, 0]).2 1 2 [3, 4]).2

/-- Witness for C2: two staged samples (`min_samples = 3`), the failed call
returns the state unchanged. -/
theorem create_voiceprint_insufficient_samples_witness :
    create_voiceprint stC2 1 = (false, stC2) ∧
    create_voiceprint_embed ⟨fun _ => none, fun _ => none⟩ 4 =
      (false, ⟨fun _ => none, fun _ => none⟩) :=
  create_voiceprint_insufficient_samples stC2 ⟨fun _ => none, fun _ => none⟩ 1 4
    (by rw [show get_sample_count stC2 1 = 2 from rfl]; norm_num)
    (by rw [show get_sample_count_embed ⟨fun _ => none, fun _ => none⟩ 4 = 0 from rfl]
        norm_num)

/-! ### Claim C8 -/

/-- Claim C8: `clear_user_voiceprint` is total and idempotent: it always
returns success, after it the user has no staged samples and no voiceprint,
and running it a second time returns success with the identical state. -/
theorem clear_user_voiceprint_idempotent (st : EnsembleState) (u : ℕ) :
    (clear_user_voiceprint st u).1 = true ∧
    (clear_user_voiceprint st u).2.samples u = none ∧
    (clear_user_voiceprint st u).2.voiceprint u = none ∧
    clear_user_voiceprint (clear_user_voiceprint st u).2 u =
      clear_user_voiceprint st u := by
  refine ⟨rfl, ?_, ?_, ?_⟩
  · simp [clear_user_voiceprint, updateFn]
  · simp [clear_user_voiceprint, updateFn]
  · show (true, (⟨_, _⟩ : EnsembleState)) = (true, ⟨_, _⟩)
    rw [show (clear_user_voiceprint st u).2.samples = updateFn st.samples u none from rfl,
        show (clear_user_voiceprint st u).2.voiceprint = updateFn st.voiceprint u none from rfl,
        updateFn_idem, updateFn_idem]

/-! ### Claim C10 -/

/-- Claim C10: the best-single-sample signal of the ensemble scorer is the
running maximum initialised at `0.0`, hence it is always nonnegative, it
dominates every per-raw-sample cosine similarity, and when the probe has
nonpositive cosine similarity to every enrolled raw sample the signal
contributes exactly `0.0`. -/
theorem bestSampleScore_nonneg_clamped (test : FeatureVec) (raw : List FeatureVec) :
    0 ≤ bestSampleScore test raw ∧
    (∀ s ∈ raw, cosineSim test s ≤ bestSampleScore test raw) ∧
    ((∀ s ∈ raw, cosineSim test s ≤ 0) → bestSampleScore test raw = 0) := by
  have hrw : bestSampleScore test raw =
      (raw.map (cosineSim test)).foldl max 0 := by
    rw [bestSampleScore, List.foldl_map]
  refine ⟨?_, ?_, ?_⟩
  · rw [hrw]; exact le_foldl_max _ 0
  · intro s hs
    rw [hrw]
    exact mem_le_foldl_max _ 0 _ (List.mem_map.mpr ⟨s, hs, rfl⟩)
  · intro hall
    have hle : (raw.map (cosineSim test)).foldl max 0 ≤ 0 := by
      apply foldl_max_le _ 0 0 le_rfl
      intro x hx
      obtain ⟨s, hs, rfl⟩ := List.mem_map.mp hx
      exact hall s hs
    have hge : 0 ≤ bestSampleScore test raw := by
      rw [hrw]; exact le_foldl_max _ 0
    rw [hrw] at hge ⊢
    exact le_antisymm hle hge

/-- Witness for C10: the probe `[1,0]` has cosine similarity `-1 ≤ 0` to the
only enrolled sample `[-1,0]`, and the signal is `0`. -/
theorem bestSampleScore_nonneg_clamped_witness :
    0 ≤ bestSampleScore [1, 0] [[-1, 0]] ∧
    bestSampleScore [1, 0] [[-1, 0]] = 0 := by
  have hcos : cosineSim [1, 0] [(-1 : ℝ), 0] = -1 := by
    rw [cosineSim_unit]
    · norm_num [dot]
    · norm_num [dot]
    · norm_num [dot]
  refine ⟨(bestSampleScore_nonneg_clamped [1, 0] [[-1, 0]]).1,
    (bestSampleScore_nonneg_clamped [1, 0] [[-1, 0]]).2.2 ?_⟩
  intro s hs
  rw [List.mem_singleton.mp hs, hcos]
  norm_num

/-! ### Claims C6 and C7 (alignment-based design) -/

theorem simOfAvgDist_nonneg (d : ℝ≥0∞) : 0 ≤ simOfAvgDist d := by
  rw [simOfAvgDist]
  split
  · exact le_refl 0
  · exact (Real.exp_pos _).le

theorem simOfAvgDist_antitone {d d' : ℝ≥0∞} (h : d ≤ d') :
    simOfAvgDist d' ≤ simOfAvgDist d := by
  by_cases htop : d' = ⊤
  · rw [htop, simOfAvgDist, if_pos rfl]
    exact simOfAvgDist_nonneg d
  · have hd : d ≠ ⊤ := by
      intro hd
      exact htop (top_le_iff.mp (hd ▸ h))
    rw [simOfAvgDist, simOfAvgDist, if_neg htop, if_neg hd]
    have hto : d.toReal ≤ d'.toReal := (ENNReal.toReal_le_toReal hd htop).mpr h
    exact Real.exp_le_exp.mpr (by linarith)

theorem simOfAvgDist_strict_anti {d₁ d₂ : ℝ≥0∞} (h : d₁ < d₂) :
    simOfAvgDist d₂ < simOfAvgDist d₁ := by
  have hd₁ : d₁ ≠ ⊤ := h.ne_top
  by_cases htop : d₂ = ⊤
  · rw [simOfAvgDist, simOfAvgDist, if_pos htop, if_neg hd₁]
    exact Real.exp_pos _
  · rw [simOfAvgDist, simOfAvgDist, if_neg htop, if_neg hd₁]
    have hto : d₁.toReal < d₂.toReal := (ENNReal.toReal_lt_toReal hd₁ htop).mpr h
    exact Real.exp_lt_exp.mpr (by linarith)

theorem sum_map_le_sum_map {α : Type} (l : List α) (f g : α → ℝ≥0∞)
    (h : ∀ i ∈ l, f i ≤ g i) : (l.map f).sum ≤ (l.map g).sum := by
  induction l with
  | nil => simp
  | cons a t ih =>
    simp only [List.map_cons, List.sum_cons]
    exact add_le_add (h a (List.mem_cons_self a t))
      (ih (fun i hi => h i (List.mem_cons_of_mem a hi)))

/-- Claim C6: in the alignment-based design the reported similarity is
`exp(-avg_distance / 40.0)` of the average per-sample DTW distance; on
finite distances this value lies in `(0, 1]` and is strictly decreasing, and
pointwise increasing the distance of the probe to every reference sample
never increases the reported similarity. -/
theorem dtw_similarity_monotone {α : Type} (dtw dtw' : α → α → ℝ≥0∞)
    (st : DTWState α) (u : ℕ) (test : α) (enrolled : List α) (d d₁ d₂ : ℝ≥0∞)
    (h : st.voiceprint u = some enrolled)
    (hmono : ∀ s, dtw test s ≤ dtw' test s)
    (hfin : d ≠ ⊤) (hlt : d₁ < d₂) :
    (authenticate_dtw dtw st u test).2 =
      simOfAvgDist ((enrolled.map (fun e => dtw test e)).sum /
        ((enrolled.map (fun e => dtw test e)).length : ℝ≥0∞)) ∧
    simOfAvgDist d = Real.exp (-(d.toReal / 40)) ∧
    0 < simOfAvgDist d ∧ simOfAvgDist d ≤ 1 ∧
    simOfAvgDist d₂ < simOfAvgDist d₁ ∧
    (authenticate_dtw dtw' st u test).2 ≤ (authenticate_dtw dtw st u test).2 := by
  refine ⟨?_, ?_, ?_, ?_, simOfAvgDist_strict_anti hlt, ?_⟩
  · simp only [authenticate_dtw, h]
  · rw [simOfAvgDist, if_neg hfin]
  · rw [simOfAvgDist, if_neg hfin]
    exact Real.exp_pos _
  · rw [simOfAvgDist, if_neg hfin]
    rw [Real.exp_le_one_iff]
    have := ENNReal.toReal_nonneg (a := d)
    linarith
  · simp only [authenticate_dtw, h]
    apply simOfAvgDist_antitone
    rw [List.length_map, List.length_map]
    exact ENNReal.div_le_div_right (sum_map_le_sum_map _ _ _ (fun s _ => hmono s)) _

/-- A concrete two-sample DTW voiceprint store (all users enrolled with two
reference matrices, here trivial `Unit` stand-ins). -/
def dtwStW : DTWState Unit := ⟨fun _ => some [(), ()]⟩

/-- The DTW oracle reporting distance `1` everywhere. -/
def dtwOne : Unit → Unit → ℝ≥0∞ := fun _ _ => 1

/-- The DTW oracle reporting distance `2` everywhere. -/
def dtwTwo : Unit → Unit → ℝ≥0∞ := fun _ _ => 2

/-- Witness for C6 at the concrete store `dtwStW` and distances 1 and 2. -/
theorem dtw_similarity_monotone_witness :
    (authenticate_dtw dtwOne dtwStW 0 ()).2 =
      simOfAvgDist (([(), ()].map (fun e => dtwOne () e)).sum /
        (([(), ()].map (fun e => dtwOne () e)).length : ℝ≥0∞)) ∧
    simOfAvgDist 1 = Real.exp (-((1 : ℝ≥0∞).toReal / 40)) ∧
    0 < simOfAvgDist 1 ∧ simOfAvgDist 1 ≤ 1 ∧
    simOfAvgDist 2 < simOfAvgDist 1 ∧
    (authenticate_dtw dtwTwo dtwStW 0 ()).2 ≤ (authenticate_dtw dtwOne dtwStW 0 ()).2 :=
  dtw_similarity_monotone dtwOne dtwTwo dtwStW 0 () [(), ()] 1 1 2 rfl
    (fun _ => by norm_num [dtwOne, dtwTwo]) ENNReal.one_ne_top (by norm_num)

/-- Claim C7: a failed or non-finite DTW alignment against any reference
sample enters the average as the infinite distance, so authentication
reports exactly `(false, 0.0)`: no exception propagates and no match is
granted. -/
theorem dtw_failed_alignment {α : Type} (dtwDist : α → α → ℝ≥0∞)
    (st : DTWState α) (u : ℕ) (test s : α) (enrolled : List α)
    (h : st.voiceprint u = some enrolled) (hs : s ∈ enrolled)
    (hfail : dtwDist test s = ⊤) :
    authenticate_dtw dtwDist st u test = (false, 0) := by
  simp only [authenticate_dtw, h]
  have htopmem : (⊤ : ℝ≥0∞) ∈ enrolled.map (fun e => dtwDist test e) :=
    List.mem_map.mpr ⟨s, hs, hfail⟩
  have hsum : (enrolled.map (fun e => dtwDist test e)).sum = ⊤ :=
    top_le_iff.mp (List.le_sum_of_mem htopmem)
  rw [hsum, ENNReal.top_div_of_ne_top (ENNReal.natCast_ne_top _)]
  rw [show simOfAvgDist ⊤ = 0 from if_pos rfl]
  rw [if_neg (by norm_num)]

/-- The DTW oracle whose every alignment fails (`float('inf')`). -/
def dtwTop : Unit → Unit → ℝ≥0∞ := fun _ _ => ⊤

/-- Witness for C7: with every alignment failing, the concrete store yields
`(false, 0.0)`. -/
theorem dtw_failed_alignment_witness :
    authenticate_dtw dtwTop dtwStW 0 () = (false, 0) :=
  dtw_failed_alignment dtwTop dtwStW 0 () () [(), ()] rfl
    (List.mem_cons_self () [()]) rfl

/-! ### Claim C3 (ensemble score formula) -/

theorem authenticate_voice_some (st : EnsembleState) (u : ℕ) (test : FeatureVec)
    (vp : Voiceprint) (h : st.voiceprint u = some vp) :
    authenticate_voice st u test =
      (if (0.75 : ℝ) ≤ npAverage
          [cosineSim test vp.mean_features, cosineSim test vp.median_features,
           bestSampleScore test vp.raw_samples,
           statScore test vp.mean_features vp.std_features] [0.3, 0.2, 0.3, 0.2]
       then true else false,
       npAverage
          [cosineSim test vp.mean_features, cosineSim test vp.median_features,
           bestSampleScore test vp.raw_samples,
           statScore test vp.mean_features vp.std_features] [0.3, 0.2, 0.3, 0.2]) := by
  rw [authenticate_voice, h]

/-- The voiceprint produced by aggregating three copies of `[1,0,0]`. -/
def vpTriple : Voiceprint :=
  ⟨[1, 0, 0], [0, 0, 0], [1, 0, 0], 3, [[1, 0, 0], [1, 0, 0], [1, 0, 0]]⟩

/-- A staging state holding three copies of `[1,0,0]` for user 5. -/
def stC3 : EnsembleState :=
  ⟨fun u => if u = 5 then some [(1, [1, 0, 0]), (2, [1, 0, 0]), (3, [1, 0, 0])] else none,
   fun _ => none⟩

/-- The state after enrolling user 5 from `stC3`. -/
def stC3x : EnsembleState := ⟨stC3.samples, updateFn stC3.voiceprint 5 (some vpTriple)⟩

theorem create_stC3 : create_voiceprint stC3 5 = (true, stC3x) := by
  have h5 : stC3.samples 5 = some [(1, [1, 0, 0]), (2, [1, 0, 0]), (3, [1, 0, 0])] := rfl
  rw [create_voiceprint, h5]
  have hm : npMean [[1, 0, 0], [1, 0, 0], [1, 0, 0]] 3 = [1, 0, 0] := by
    norm_num [npMean, dimVals, meanList, List.range_succ]
  have hs : npStd [[1, 0, 0], [1, 0, 0], [1, 0, 0]] 3 = [0, 0, 0] := by
    norm_num [npStd, dimVals, stdList, meanList, List.range_succ]
  have hmd : npMedian [[1, 0, 0], [1, 0, 0], [1, 0, 0]] 3 = [1, 0, 0] := by
    norm_num [npMedian, dimVals, medianList, meanList, List.range_succ,
      List.insertionSort, List.orderedInsert]
  norm_num
  rw [hm, hs, hmd]
  rfl

theorem cos_negone_one : cosineSim [-1, 0, 0] [1, 0, 0] = -1 := by
  rw [cosineSim_unit] <;> norm_num [dot]

theorem vpTriple_neg_eval (st : EnsembleState) (u : ℕ)
    (h : st.voiceprint u = some vpTriple) :
    (authenticate_voice st u [-1, 0, 0]).1 = false ∧
    (authenticate_voice st u [-1, 0, 0]).2 = -0.5 + 0.2 * (3 / 200000003) := by
  rw [authenticate_voice_some st u [-1, 0, 0] vpTriple h]
  have h1 : cosineSim [-1, 0, 0] vpTriple.mean_features = -1 := cos_negone_one
  have h2 : cosineSim [-1, 0, 0] vpTriple.median_features = -1 := cos_negone_one
  have h3 : bestSampleScore [-1, 0, 0] vpTriple.raw_samples = 0 := by
    rw [show vpTriple.raw_samples = [[1, 0, 0], [1, 0, 0], [1, 0, 0]] from rfl,
        bestSampleScore]
    norm_num [cos_negone_one]
  have h4 : statScore [-1, 0, 0] vpTriple.mean_features vpTriple.std_features =
      3 / 200000003 := by
    rw [show vpTriple.mean_features = [1, 0, 0] from rfl,
        show vpTriple.std_features = [0, 0, 0] from rfl, statScore]
    norm_num [meanList, eps]
  have hF : npAverage [(-1 : ℝ), -1, 0, 3 / 200000003] [0.3, 0.2, 0.3, 0.2] =
      -0.5 + 0.2 * (3 / 200000003) := by
    rw [npAverage]
    norm_num
  rw [h1, h2, h3, h4, hF]
  constructor
  · rw [if_neg (by norm_num)]
  · rfl

/-- Counterexample for claim C3: for the enrolled voiceprint of user 5
(three copies of `[1,0,0]`) and the probe `[-1,0,0]`, the confidence
returned by `authenticate_voice` differs from the spec's weighted average of
the four signals with "the best per-raw-sample cosine similarity" as third
signal: the code clamps that signal at `0.0` (here every per-sample cosine
is `-1`), shifting the final score by `0.3`. -/
theorem ensemble_score_spec_counterexample :
    create_voiceprint stC3 5 = (true, stC3x) ∧
    stC3x.voiceprint 5 = some vpTriple ∧
    (authenticate_voice stC3x 5 [-1, 0, 0]).2 ≠ specFinalScore vpTriple [-1, 0, 0] := by
  refine ⟨create_stC3, rfl, ?_⟩
  have hcode : (authenticate_voice stC3x 5 [-1, 0, 0]).2 = -0.5 + 0.2 * (3 / 200000003) :=
    (vpTriple_neg_eval stC3x 5 rfl).2
  have hspec : specFinalScore vpTriple [-1, 0, 0] = -0.8 + 0.2 * (3 / 200000003) := by
    rw [specFinalScore,
        show vpTriple.mean_features = [1, 0, 0] from rfl,
        show vpTriple.median_features = [1, 0, 0] from rfl,
        show vpTriple.std_features = [0, 0, 0] from rfl,
        show vpTriple.raw_samples = [[1, 0, 0], [1, 0, 0], [1, 0, 0]] from rfl]
    have h3 : specBestRawCos [-1, 0, 0] [[1, 0, 0], [1, 0, 0], [1, 0, 0]] = -1 := by
      rw [specBestRawCos]
      norm_num [cos_negone_one]
    have h4 : statScore [-1, 0, 0] [1, 0, 0] [0, 0, 0] = 3 / 200000003 := by
      rw [statScore]
      norm_num [meanList, eps]
    rw [cos_negone_one, h3, h4]
    norm_num
  rw [hcode, hspec]
  norm_num

/-- Claim C3, amended: the final ensemble score equals the weighted average
(weights 0.3, 0.2, 0.3, 0.2, summing to 1) of the cosine similarity to the
mean vector, the cosine similarity to the median vector, the best
per-raw-sample cosine similarity clamped below at `0.0`, and the
statistical-distance similarity; `is_match` holds exactly when this final
score is `≥ 0.75`. -/
theorem ensemble_score_formula (st : EnsembleState) (u : ℕ) (test : FeatureVec)
    (vp : Voiceprint) (h : st.voiceprint u = some vp) :
    (authenticate_voice st u test).2 =
      0.3 * cosineSim test vp.mean_features + 0.2 * cosineSim test vp.median_features +
      0.3 * bestSampleScore test vp.raw_samples +
      0.2 * statScore test vp.mean_features vp.std_features ∧
    ((authenticate_voice st u test).1 = true ↔
      (0.75 : ℝ) ≤ (authenticate_voice st u test).2) := by
  rw [authenticate_voice_some st u test vp h]
  constructor
  · show npAverage _ _ = _
    rw [npAverage]
    norm_num
    ring
  · show (if _ then true else false) = true ↔ _
    split_ifs with hc <;> simp [hc]

/-- Witness for the amended C3 at the concrete enrolled state of user 5. -/
theorem ensemble_score_formula_witness :
    (authenticate_voice stC3x 5 [1, 0, 0]).2 =
      0.3 * cosineSim [1, 0, 0] vpTriple.mean_features +
      0.2 * cosineSim [1, 0, 0] vpTriple.median_features +
      0.3 * bestSampleScore [1, 0, 0] vpTriple.raw_samples +
      0.2 * statScore [1, 0, 0] vpTriple.mean_features vpTriple.std_features ∧
    ((authenticate_voice stC3x 5 [1, 0, 0]).1 = true ↔
      (0.75 : ℝ) ≤ (authenticate_voice stC3x 5 [1, 0, 0]).2) :=
  ensemble_score_formula stC3x 5 [1, 0, 0] vpTriple rfl

/-! ### Claim C4 (self-match) -/

theorem npStd_mem_nonneg (s : List FeatureVec) (D : ℕ) :
    ∀ x ∈ npStd s D, 0 ≤ x := by
  intro x hx
  obtain ⟨d, _, rfl⟩ := List.mem_map.mp hx
  exact Real.sqrt_nonneg _

/-- The voiceprint produced by aggregating `[1,0]`, `[-1,0]`, `[-1,0]`. -/
def vpC4 : Voiceprint :=
  ⟨[-1/3, 0], npStd [[1, 0], [-1, 0], [-1, 0]] 2, [-1, 0], 3,
   [[1, 0], [-1, 0], [-1, 0]]⟩

/-- A staging state holding `[1,0]`, `[-1,0]`, `[-1,0]` for user 7. -/
def stC4 : EnsembleState :=
  ⟨fun u => if u = 7 then some [(1, [1, 0]), (2, [-1, 0]), (3, [-1, 0])] else none,
   fun _ => none⟩

/-- The state after enrolling user 7 from `stC4`. -/
def stC4x : EnsembleState := ⟨stC4.samples, updateFn stC4.voiceprint 7 (some vpC4)⟩

/-- Counterexample for claim C4: user 7 is enrolled from the three raw
samples `[1,0]`, `[-1,0]`, `[-1,0]`; the probe `[1,0]` is identical to the
first enrolled raw sample, yet `is_match` is `false` at threshold 0.75 (the
cosine similarities to the mean and median vectors are both `-1`, outweighing
the best-sample signal `1`). -/
theorem self_match_counterexample :
    create_voiceprint stC4 7 = (true, stC4x) ∧
    stC4x.voiceprint 7 = some vpC4 ∧
    [1, 0] ∈ vpC4.raw_samples ∧
    (authenticate_voice stC4x 7 [1, 0]).1 = false := by
  refine ⟨?_, rfl, ?_, ?_⟩
  · have h7 : stC4.samples 7 = some [(1, [1, 0]), (2, [-1, 0]), (3, [-1, 0])] := rfl
    rw [create_voiceprint, h7]
    have hm : npMean [[1, 0], [-1, 0], [-1, 0]] 2 = [-1/3, 0] := by
      norm_num [npMean, dimVals, meanList, List.range_succ]
    have hmd : npMedian [[1, 0], [-1, 0], [-1, 0]] 2 = [-1, 0] := by
      norm_num [npMedian, dimVals, medianList, meanList, List.range_succ,
        List.insertionSort, List.orderedInsert]
    norm_num
    rw [hm, hmd]
    rfl
  · rw [show vpC4.raw_samples = [[1, 0], [-1, 0], [-1, 0]] from rfl]
    exact List.mem_cons_self _ _
  · rw [authenticate_voice_some stC4x 7 [1, 0] vpC4 rfl]
    have h1 : cosineSim [1, 0] vpC4.mean_features = -1 := by
      rw [show vpC4.mean_features = [-1/3, 0] from rfl]
      rw [cosineSim_eval [1, 0] [-1/3, 0] 1 (1/3) (by norm_num) (by norm_num)
          (by norm_num [dot]) (by norm_num [dot])]
      norm_num [dot]
    have h2 : cosineSim [1, 0] vpC4.median_features = -1 := by
      rw [show vpC4.median_features = [-1, 0] from rfl, cosineSim_unit] <;> norm_num [dot]
    have hc1 : cosineSim [1, 0] [1, 0] = 1 := by
      rw [cosineSim_unit] <;> norm_num [dot]
    have hc2 : cosineSim [1, 0] [-1, 0] = -1 := by
      rw [cosineSim_unit] <;> norm_num [dot]
    have h3 : bestSampleScore [1, 0] vpC4.raw_samples = 1 := by
      rw [show vpC4.raw_samples = [[1, 0], [-1, 0], [-1, 0]] from rfl, bestSampleScore]
      norm_num [hc1, hc2]
    set s4 := statScore [1, 0] vpC4.mean_features vpC4.std_features with hs4
    have h4 : s4 ≤ 1 := by
      rw [hs4]
      exact statScore_le_one _ _ _ (npStd_mem_nonneg _ _)
    have hnc : ¬ (0.75 : ℝ) ≤ npAverage [(-1 : ℝ), -1, 1, s4] [0.3, 0.2, 0.3, 0.2] := by
      intro hcontra
      rw [npAverage] at hcontra
      norm_num at hcontra
      linarith
    rw [h1, h2, h3]
    rw [if_neg hnc]

/-- A staging state holding three copies of `[2]` for user 0. -/
def stC4w : EnsembleState :=
  ⟨fun u => if u = 0 then some [(1, [2]), (2, [2]), (3, [2])] else none,
   fun _ => none⟩

/-! ### Claim C5 (end-to-end run) -/

/-- The state after staging the feature vector `[1,0,0]` three times (sample
numbers 1, 2, 3) for user 1, starting from the empty store. -/
def stC5 : EnsembleState :=
  (save_voice_sample
    (save_voice_sample
      (save_voice_sample emptyEnsembleState 1 1 [1, 0, 0]).2 1 2 [1, 0, 0]).2
    1 3 [1, 0, 0]).2

/-- The state after enrolling user 1 from `stC5`. -/
def stC5x : EnsembleState := ⟨stC5.samples, updateFn stC5.voiceprint 1 (some vpTriple)⟩

/-- Claim C5: staging three identical vectors `[1,0,0]` and creating the
voiceprint succeeds; authenticating with `[1,0,0]` yields cosine similarity
`1.0` (every cosine signal, and the fused confidence, equals 1) and
`is_match = true`; authenticating with `[-1,0,0]` yields `is_match = false`. -/
theorem end_to_end_enrollment :
    (create_voiceprint stC5 1).1 = true ∧
    cosineSim [1, 0, 0] [1, 0, 0] = 1 ∧
    authenticate_voice (create_voiceprint stC5 1).2 1 [1, 0, 0] = (true, 1) ∧
    (authenticate_voice (create_voiceprint stC5 1).2 1 [-1, 0, 0]).1 = false := by
  have hst : stC5.samples 1 = some [(1, [1, 0, 0]), (2, [1, 0, 0]), (3, [1, 0, 0])] := rfl
  have hcr : create_voiceprint stC5 1 = (true, stC5x) := by
    rw [create_voiceprint, hst]
    have hm : npMean [[1, 0, 0], [1, 0, 0], [1, 0, 0]] 3 = [1, 0, 0] := by
      norm_num [npMean, dimVals, meanList, List.range_succ]
    have hs : npStd [[1, 0, 0], [1, 0, 0], [1, 0, 0]] 3 = [0, 0, 0] := by
      norm_num [npStd, dimVals, stdList, meanList, List.range_succ]
    have hmd : npMedian [[1, 0, 0], [1, 0, 0], [1, 0, 0]] 3 = [1, 0, 0] := by
      norm_num [npMedian, dimVals, medianList, meanList, List.range_succ,
        List.insertionSort, List.orderedInsert]
    norm_num
    rw [hm, hs, hmd]
    rfl
  have hcos : cosineSim [(1 : ℝ), 0, 0] [1, 0, 0] = 1 := by
    rw [cosineSim_unit] <;> norm_num [dot]
  refine ⟨by rw [hcr], hcos, ?_, ?_⟩
  · rw [hcr]
    rw [authenticate_voice_some stC5x 1 [1, 0, 0] vpTriple rfl]
    have h1 : cosineSim [1, 0, 0] vpTriple.mean_features = 1 := hcos
    have h2 : cosineSim [1, 0, 0] vpTriple.median_features = 1 := hcos
    have h3 : bestSampleScore [1, 0, 0] vpTriple.raw_samples = 1 := by
      rw [show vpTriple.raw_samples = [[1, 0, 0], [1, 0, 0], [1, 0, 0]] from rfl,
          bestSampleScore]
      norm_num [hcos]
    have h4 : statScore [1, 0, 0] vpTriple.mean_features vpTriple.std_features = 1 := by
      rw [show vpTriple.mean_features = [(1 : ℝ), 0, 0] from rfl]
      exact statScore_self [(1 : ℝ), 0, 0] _
    have hF : npAverage [(1 : ℝ), 1, 1, 1] [0.3, 0.2, 0.3, 0.2] = 1 := by
      rw [npAverage]
      norm_num
    rw [h1, h2, h3, h4, hF]
    rw [if_pos (by norm_num : (0.75 : ℝ) ≤ 1)]
  · rw [hcr]
    exact (vpTriple_neg_eval stC5x 1 rfl).1

/-! ### Claim C9 (order independence) -/

theorem create_voiceprint_success (st : EnsembleState) (u : ℕ)
    (dir : List (ℕ × FeatureVec)) (h : st.samples u = some dir)
    (h3 : ¬ (dir.map (fun p => p.2)).length < 3) :
    create_voiceprint st u = (true, ⟨st.samples, updateFn st.voiceprint u
      (some ⟨npMean (dir.map (fun p => p.2)) ((dir.map (fun p => p.2)).headD []).length,
             npStd (dir.map (fun p => p.2)) ((dir.map (fun p => p.2)).headD []).length,
             npMedian (dir.map (fun p => p.2)) ((dir.map (fun p => p.2)).headD []).length,
             (dir.map (fun p => p.2)).length, dir.map (fun p => p.2)⟩)⟩) := by
  rw [create_voiceprint, h]
  exact if_neg h3

/-- Claim C9: aggregation is deterministic and order-independent. -/
theorem aggregation_order_independent (st stp : EnsembleState) (u up : ℕ)
    (dir dirp : List (ℕ × FeatureVec)) (D : ℕ)
    (h : st.samples u = some dir) (hp : stp.samples up = some dirp)
    (hperm : (dir.map (fun p => p.2)).Perm (dirp.map (fun p => p.2)))
    (hD : ∀ s ∈ dir.map (fun p => p.2), s.length = D)
    (hn : 3 ≤ dir.length) :
    (create_voiceprint st u).1 = true ∧ (create_voiceprint stp up).1 = true ∧
    ∃ vp vpp : Voiceprint,
      (create_voiceprint st u).2.voiceprint u = some vp ∧
      (create_voiceprint stp up).2.voiceprint up = some vpp ∧
      vp.mean_features = vpp.mean_features ∧
      vp.median_features = vpp.median_features ∧
      vp.std_features = vpp.std_features ∧
      vp.mean_features.length = D ∧ vp.median_features.length = D ∧
      vp.std_features.length = D := by
  have hD2 : ∀ s ∈ dirp.map (fun p => p.2), s.length = D :=
    fun s hs => hD s (hperm.mem_iff.mpr hs)
  have hlen : (dir.map (fun p => p.2)).length = dir.length := List.length_map _ _
  have h3 : ¬ (dir.map (fun p => p.2)).length < 3 := by omega
  have hlenp : (dirp.map (fun p => p.2)).length = (dir.map (fun p => p.2)).length :=
    hperm.length_eq.symm
  have h3p : ¬ (dirp.map (fun p => p.2)).length < 3 := by omega
  have hhead : ((dir.map (fun p => p.2)).headD []).length = D := by
    cases hc : dir.map (fun p => p.2) with
    | nil =>
      exfalso
      rw [hc] at hlen
      simp only [List.length_nil] at hlen
      omega
    | cons a t =>
      simp only [List.headD_cons]
      exact hD a (by rw [hc]; exact List.mem_cons_self a t)
  have hheadp : ((dirp.map (fun p => p.2)).headD []).length = D := by
    cases hc : dirp.map (fun p => p.2) with
    | nil =>
      exfalso
      rw [hc] at hlenp
      simp only [List.length_nil] at hlenp
      omega
    | cons a t =>
      simp only [List.headD_cons]
      exact hD2 a (by rw [hc]; exact List.mem_cons_self a t)
  have hcr := create_voiceprint_success st u dir h h3
  have hcrp := create_voiceprint_success stp up dirp hp h3p
  rw [hhead] at hcr
  rw [hheadp] at hcrp
  refine ⟨by rw [hcr], by rw [hcrp],
    ⟨npMean (dir.map (fun p => p.2)) D, npStd (dir.map (fun p => p.2)) D,
     npMedian (dir.map (fun p => p.2)) D, (dir.map (fun p => p.2)).length,
     dir.map (fun p => p.2)⟩,
    ⟨npMean (dirp.map (fun p => p.2)) D, npStd (dirp.map (fun p => p.2)) D,
     npMedian (dirp.map (fun p => p.2)) D, (dirp.map (fun p => p.2)).length,
     dirp.map (fun p => p.2)⟩, ?_, ?_, ?_, ?_, ?_, ?_, ?_, ?_⟩
  · rw [hcr]; simp [updateFn]
  · rw [hcrp]; simp [updateFn]
  · rw [npMean, npMean]
    exact List.map_congr_left (fun d _ => meanList_perm (dimVals_perm hperm d))
  · rw [npMedian, npMedian]
    exact List.map_congr_left (fun d _ => medianList_perm (dimVals_perm hperm d))
  · rw [npStd, npStd]
    exact List.map_congr_left (fun d _ => stdList_perm (dimVals_perm hperm d))
  · simp [npMean]
  · simp [npMedian]
  · simp [npStd]

/-- Witness for C9 at the concrete three-sample staging state of user 5. -/
theorem aggregation_order_independent_witness :
    (create_voiceprint stC3 5).1 = true ∧ (create_voiceprint stC3 5).1 = true ∧
    ∃ vp vpp : Voiceprint,
      (create_voiceprint stC3 5).2.voiceprint 5 = some vp ∧
      (create_voiceprint stC3 5).2.voiceprint 5 = some vpp ∧
      vp.mean_features = vpp.mean_features ∧
      vp.median_features = vpp.median_features ∧
      vp.std_features = vpp.std_features ∧
      vp.mean_features.length = 3 ∧ vp.median_features.length = 3 ∧
      vp.std_features.length = 3 :=
  aggregation_order_independent stC3 stC3 5 5
    [(1, [1, 0, 0]), (2, [1, 0, 0]), (3, [1, 0, 0])]
    [(1, [1, 0, 0]), (2, [1, 0, 0]), (3, [1, 0, 0])] 3
    rfl rfl (List.Perm.refl _)
    (by intro s hs; simp at hs; subst hs; rfl) (by norm_num)

/-! ### Claim C4, amended statement (placed after `create_voiceprint_success`,
which its proof uses) -/

theorem dot_sq_le (a : FeatureVec) : ∀ b : FeatureVec, (dot a b) ^ 2 ≤ dot a a * dot b b := by
  induction a with
  | nil =>
    intro b
    simp [dot]
  | cons x a ih =>
    intro b
    cases b with
    | nil => simp [dot]
    | cons y b =>
      have hP := dot_self_nonneg a
      have hQ := dot_self_nonneg b
      have hD := ih b
      have hxy : dot (x :: a) (y :: b) = x * y + dot a b := by
        rw [dot, dot, List.zipWith_cons_cons, List.sum_cons]
      have hxx : dot (x :: a) (x :: a) = x ^ 2 + dot a a := by
        rw [dot, dot, List.zipWith_cons_cons, List.sum_cons]
        ring
      have hyy : dot (y :: b) (y :: b) = y ^ 2 + dot b b := by
        rw [dot, dot, List.zipWith_cons_cons, List.sum_cons]
        ring
      rw [hxy, hxx, hyy]
      rcases eq_or_lt_of_le hQ with hQ0 | hQpos
      · have hD0 : dot a b = 0 := by nlinarith
        rw [hD0, ← hQ0]
        nlinarith [mul_nonneg hP (sq_nonneg y)]
      · nlinarith [sq_nonneg (x * dot b b - y * dot a b),
          mul_nonneg (sq_nonneg y) (sub_nonneg.mpr hD),
          mul_nonneg hQpos.le (sub_nonneg.mpr hD)]

theorem dot_le_sqrt_mul_sqrt (a b : FeatureVec) :
    dot a b ≤ Real.sqrt (dot a a) * Real.sqrt (dot b b) := by
  have h1 : dot a b ≤ |dot a b| := le_abs_self _
  have h2 : |dot a b| = Real.sqrt ((dot a b) ^ 2) := (Real.sqrt_sq_eq_abs _).symm
  have h3 : Real.sqrt ((dot a b) ^ 2) ≤ Real.sqrt (dot a a * dot b b) :=
    Real.sqrt_le_sqrt (dot_sq_le a b)
  rw [Real.sqrt_mul (dot_self_nonneg a)] at h3
  linarith

theorem cosineSim_le_one (a b : FeatureVec) : cosineSim a b ≤ 1 := by
  rw [cosineSim]
  split
  · norm_num
  · rename_i hne
    push_neg at hne
    have ha : 0 < Real.sqrt (dot a a) :=
      lt_of_le_of_ne (Real.sqrt_nonneg _) (Ne.symm hne.1)
    have hb : 0 < Real.sqrt (dot b b) :=
      lt_of_le_of_ne (Real.sqrt_nonneg _) (Ne.symm hne.2)
    rw [div_le_one (mul_pos ha hb)]
    exact dot_le_sqrt_mul_sqrt a b

theorem bestSampleScore_self_mem {v : FeatureVec} (raw : List FeatureVec)
    (hv : dot v v ≠ 0) (hmem : v ∈ raw) : bestSampleScore v raw = 1 := by
  have hrw : bestSampleScore v raw = (raw.map (cosineSim v)).foldl max 0 := by
    rw [bestSampleScore, List.foldl_map]
  rw [hrw]
  apply le_antisymm
  · apply foldl_max_le _ 0 1 (by norm_num)
    intro x hx
    obtain ⟨s, _, rfl⟩ := List.mem_map.mp hx
    exact cosineSim_le_one v s
  · have : cosineSim v v ∈ raw.map (cosineSim v) := List.mem_map.mpr ⟨v, hmem, rfl⟩
    have h1 := mem_le_foldl_max (raw.map (cosineSim v)) 0 _ this
    rw [cosineSim_self hv] at h1
    exact h1

theorem orderedInsert_replicate (x : ℝ) :
    ∀ m, List.orderedInsert (fun a b => a ≤ b) x (List.replicate m x) =
      List.replicate (m + 1) x := by
  intro m
  cases m with
  | zero => rfl
  | succ m =>
    rw [List.replicate_succ, List.orderedInsert, if_pos le_rfl, ← List.replicate_succ,
        ← List.replicate_succ]

theorem insertionSort_replicate (x : ℝ) :
    ∀ k, List.insertionSort (fun a b => a ≤ b) (List.replicate k x) =
      List.replicate k x := by
  intro k
  induction k with
  | zero => rfl
  | succ k ih =>
    rw [List.replicate_succ, List.insertionSort, ih, orderedInsert_replicate, List.replicate_succ]

theorem getD_replicate_of_lt (x : ℝ) (k i : ℕ) (h : i < k) :
    (List.replicate k x).getD i 0 = x := by
  rw [List.getD_eq_getElem _ 0 (by simpa using h), List.getElem_replicate]

theorem meanList_replicate (x : ℝ) (k : ℕ) (hk : 0 < k) :
    meanList (List.replicate k x) = x := by
  have hk0 : (k : ℝ) ≠ 0 := by positivity
  rw [meanList, List.sum_replicate, List.length_replicate, nsmul_eq_mul,
      mul_comm, mul_div_assoc, div_self hk0, mul_one]

theorem medianList_replicate (x : ℝ) (k : ℕ) (hk : 0 < k) :
    medianList (List.replicate k x) = x := by
  rw [medianList, List.length_replicate, insertionSort_replicate]
  split
  · exact getD_replicate_of_lt x k (k / 2) (Nat.div_lt_self hk (by norm_num))
  · have h2 : k / 2 < k := Nat.div_lt_self hk (by norm_num)
    have h1 : k / 2 - 1 < k := by omega
    rw [getD_replicate_of_lt x k (k / 2 - 1) h1, getD_replicate_of_lt x k (k / 2) h2]
    ring

theorem npMean_replicate (v : FeatureVec) (k : ℕ) (hk : 0 < k) :
    npMean (List.replicate k v) v.length = v := by
  have h : ∀ d, meanList (dimVals (List.replicate k v) d) = v.getD d 0 := by
    intro d
    rw [dimVals, List.map_replicate]
    exact meanList_replicate _ k hk
  calc npMean (List.replicate k v) v.length
      = List.map (fun d => v.getD d 0) (List.range v.length) := by
        rw [npMean]
        exact List.map_congr_left (fun d _ => h d)
    _ = v := mapRange_getD v

theorem npMedian_replicate (v : FeatureVec) (k : ℕ) (hk : 0 < k) :
    npMedian (List.replicate k v) v.length = v := by
  have h : ∀ d, medianList (dimVals (List.replicate k v) d) = v.getD d 0 := by
    intro d
    rw [dimVals, List.map_replicate]
    exact medianList_replicate _ k hk
  calc npMedian (List.replicate k v) v.length
      = List.map (fun d => v.getD d 0) (List.range v.length) := by
        rw [npMedian]
        exact List.map_congr_left (fun d _ => h d)
    _ = v := mapRange_getD v

/-- Claim C4, amended: a probe identical to one of several enrolled raw
samples always drives the best-single-sample signal to exactly `1` (for a
not-all-zero probe, by Cauchy-Schwarz no cosine exceeds 1 and the self
cosine is 1), but need not yield `is_match = true` at threshold 0.75 (see
the counterexample); when every staged sample (any number `≥ min_samples`,
any sample indices) is identical to the not-all-zero probe, enrollment
succeeds and authentication returns exactly `(true, 1)`. -/
theorem self_match_identical_enrollment (st : EnsembleState) (u : ℕ) (v : FeatureVec)
    (dir : List (ℕ × FeatureVec))
    (h : st.samples u = some dir) (hall : ∀ p ∈ dir, p.2 = v)
    (hn : 3 ≤ dir.length) (hv : dot v v ≠ 0) :
    (∀ raw : List FeatureVec, v ∈ raw → bestSampleScore v raw = 1) ∧
    (create_voiceprint st u).1 = true ∧
    authenticate_voice (create_voiceprint st u).2 u v = (true, 1) := by
  have hk : 0 < dir.length := by omega
  have hsamps : dir.map (fun p => p.2) = List.replicate dir.length v := by
    apply List.eq_replicate_iff.mpr
    exact ⟨List.length_map _ _, by
      intro b hb
      obtain ⟨p, hp, rfl⟩ := List.mem_map.mp hb
      exact hall p hp⟩
  have h3 : ¬ (dir.map (fun p => p.2)).length < 3 := by
    rw [List.length_map]
    omega
  have hhead : ((dir.map (fun p => p.2)).headD []).length = v.length := by
    rw [hsamps]
    cases hc : dir.length with
    | zero => omega
    | succ m => rw [List.replicate_succ, List.headD_cons]
  have hcr := create_voiceprint_success st u dir h h3
  rw [hhead, hsamps, List.length_replicate] at hcr
  have hvp : (create_voiceprint st u).2.voiceprint u =
      some ⟨npMean (List.replicate dir.length v) v.length,
            npStd (List.replicate dir.length v) v.length,
            npMedian (List.replicate dir.length v) v.length,
            dir.length, List.replicate dir.length v⟩ := by
    rw [hcr]
    simp [updateFn]
  refine ⟨fun raw hmem => bestSampleScore_self_mem raw hv hmem, by rw [hcr], ?_⟩
  rw [authenticate_voice_some _ _ _ _ hvp]
  have h1 : cosineSim v (npMean (List.replicate dir.length v) v.length) = 1 := by
    rw [npMean_replicate v _ hk]
    exact cosineSim_self hv
  have h2 : cosineSim v (npMedian (List.replicate dir.length v) v.length) = 1 := by
    rw [npMedian_replicate v _ hk]
    exact cosineSim_self hv
  have h3b : bestSampleScore v (List.replicate dir.length v) = 1 :=
    bestSampleScore_self_mem _ hv (List.mem_replicate.mpr ⟨by omega, rfl⟩)
  have h4 : statScore v (npMean (List.replicate dir.length v) v.length)
      (npStd (List.replicate dir.length v) v.length) = 1 := by
    rw [npMean_replicate v _ hk]
    exact statScore_self v _
  rw [h1, h2, h3b, h4]
  have hF : npAverage [(1 : ℝ), 1, 1, 1] [0.3, 0.2, 0.3, 0.2] = 1 := by
    rw [npAverage]
    norm_num
  rw [hF, if_pos (by norm_num : (0.75 : ℝ) ≤ 1)]

/-- Witness for the amended C4: three identical staged samples `[2]` for
user 0 in `stC4w`. -/
theorem self_match_identical_enrollment_witness :
    (∀ raw : List FeatureVec, [2] ∈ raw → bestSampleScore [2] raw = 1) ∧
    (create_voiceprint stC4w 0).1 = true ∧
    authenticate_voice (create_voiceprint stC4w 0).2 0 [2] = (true, 1) :=
  self_match_identical_enrollment stC4w 0 [2] [(1, [2]), (2, [2]), (3, [2])] rfl
    (by
      intro p hp
      simp only [List.mem_cons, List.not_mem_nil, or_false] at hp
      rcases hp with h | h | h <;> rw [h])
    (by norm_num) (by norm_num [dot])

end Hybrid

end
